import Mathlib

/-!
# Verification of the request-signing core (`xhs_sign_utils.py`)

A shallow embedding, in Lean 4, of the signature-engine functions of
`xhs_sign_utils.py`: the canonical sign-string builder, the CRC32 variant
`mrc`, the custom Base64 codec, the percent-encoding pipeline `encode_utf8`,
the header-envelope builders, and the browser-delegated opaque-token call.

Modelling conventions:
* Python `str` values are represented as `List Nat` of Unicode code points;
  `codes` converts a Lean string literal to this representation.
* Python arbitrary-precision `int` is `Int`; bit-level operations that the
  source performs on (possibly negative) Python ints are modelled by
  explicitly defined two's-complement operations on `Int`.
* Python code that can raise (list indexing out of range, `int(..., 16)` on a
  non-hex slice) is modelled with `Option`: `none` is a raised exception.
* The Playwright page is modelled as an oracle record (`Browser`): an
  evaluator call either throws, returns null/None, or returns a string.
-/

/-- Code points of a Lean string literal; the representation of a Python `str`. -/
def codes (s : String) : List Nat := s.toList.map Char.toNat

/-- Valid Unicode scalar code point (what a well-formed Python `str` character
holds once lone surrogates — which `str.encode("utf-8")` rejects — are
excluded). -/
def isValidCP (c : Nat) : Prop := c < 0xD800 ∨ (0xDFFF < c ∧ c < 0x110000)

instance (c : Nat) : Decidable (isValidCP c) := by
  unfold isValidCP; infer_instance

/-- UTF-8 bytes of one code point (standard 1–4 byte encoding). -/
def utf8Bytes (c : Nat) : List Nat :=
  if c < 0x80 then [c]
  else if c < 0x800 then [0xC0 + c / 0x40, 0x80 + c % 0x40]
  else if c < 0x10000 then
    [0xE0 + c / 0x1000, 0x80 + c / 0x40 % 0x40, 0x80 + c % 0x40]
  else
    [0xF0 + c / 0x40000, 0x80 + c / 0x1000 % 0x40, 0x80 + c / 0x40 % 0x40,
     0x80 + c % 0x40]

/-- Direct UTF-8 encoding of a string, the specification-side reference for
the refinement claim about `encode_utf8`. -/
def utf8Encode (s : List Nat) : List Nat := s.flatMap utf8Bytes

/-- Uppercase hex digits, used by `urllib.parse.quote` percent-escapes. -/
def HEX_UPPER : List Nat := codes "0123456789ABCDEF"

/-- Lowercase hex digits, used by `hexdigest` and JSON `\uXXXX` escapes. -/
def HEX_LOWER : List Nat := codes "0123456789abcdef"

/-- One uppercase hex digit; the index is `< 16` at every call site. -/
def hexUpper (n : Nat) : Nat := HEX_UPPER.getD n 63

/-- One lowercase hex digit; the index is `< 16` at every call site. -/
def hexLower (n : Nat) : Nat := HEX_LOWER.getD n 63

/-- The characters `urllib.parse.quote` never quotes
(`_ALWAYS_SAFE`: ASCII letters, digits, `_.-~`). -/
def ALWAYS_SAFE : List Nat :=
  codes "ABCDEFGHIJKLMNOPQRSTUVWXYZabcdefghijklmnopqrstuvwxyz0123456789_.-~"

/-- Percent-escape of one byte: `%` followed by two uppercase hex digits. -/
def pctByte (b : Nat) : List Nat := [37, hexUpper (b / 16), hexUpper (b % 16)]

/-- `urllib.parse.quote(s, safe)`: each character in `ALWAYS_SAFE` or in
`safe` passes through; every other character is UTF-8-encoded and each of its
bytes is rendered as `%XX`.  (CPython quotes the UTF-8 bytes of the string;
since safe characters are ASCII and encode to themselves, the per-character
formulation below is the same function.) -/
def pyQuote (safe : List Nat) (s : List Nat) : List Nat :=
  s.flatMap fun c =>
    if c ∈ ALWAYS_SAFE ∨ c ∈ safe then [c] else (utf8Bytes c).flatMap pctByte

/-- Value of one hex-digit character, as accepted by `int(_, 16)`. -/
def hexVal (c : Nat) : Option Nat :=
  if 48 ≤ c ∧ c ≤ 57 then some (c - 48)
  else if 65 ≤ c ∧ c ≤ 70 then some (c - 55)
  else if 97 ≤ c ∧ c ≤ 102 then some (c - 87)
  else none

/-- The percent-decoding loop of `encode_utf8` (lines 95–104 of the source):
on `%` it parses `encoded[i+1:i+3]` as hex (two characters, or one when the
string ends right after — `int("X", 16)` still succeeds on one digit, while
`int("", 16)` and non-hex slices raise, which `none` models); any other
character contributes its raw code point. -/
def decodeQuoted : List Nat → Option (List Nat)
  | [] => some []
  | c :: rest =>
    if c = 37 then
      match rest with
      | h1 :: h2 :: rest2 =>
        match hexVal h1, hexVal h2 with
        | some v1, some v2 => (decodeQuoted rest2).map fun t => (v1 * 16 + v2) :: t
        | _, _ => none
      | [h1] => (hexVal h1).map fun v => [v]
      | [] => none
    else (decodeQuoted rest).map fun t => c :: t

/-- `encode_utf8` (source lines 92–104): quote with `safe="~()*!.'"`, then
fold the quoted text back to a byte list. -/
def encode_utf8 (s : List Nat) : Option (List Nat) :=
  decodeQuoted (pyQuote (codes "~()*!.'") s)

/-- The CRC32 polynomial table of the source (256 entries). -/
def CRC32_TABLE : List Int := [
  0, 1996959894, 3993919788, 2567524794, 124634137, 1886057615, 3915621685,
  2657392035, 249268274, 2044508324, 3772115230, 2547177864, 162941995,
  2125561021, 3887607047, 2428444049, 498536548, 1789927666, 4089016648,
  2227061214, 450548861, 1843258603, 4107580753, 2211677639, 325883990,
  1684777152, 4251122042, 2321926636, 335633487, 1661365465, 4195302755,
  2366115317, 997073096, 1281953886, 3579855332, 2724688242, 1006888145,
  1258607687, 3524101629, 2768942443, 901097722, 1119000684, 3686517206,
  2898065728, 853044451, 1172266101, 3705015759, 2882616665, 651767980,
  1373503546, 3369554304, 3218104598, 565507253, 1454621731, 3485111705,
  3099436303, 671266974, 1594198024, 3322730930, 2970347812, 795835527,
  1483230225, 3244367275, 3060149565, 1994146192, 31158534, 2563907772,
  4023717930, 1907459465, 112637215, 2680153253, 3904427059, 2013776290,
  251722036, 2517215374, 3775830040, 2137656763, 141376813, 2439277719,
  3865271297, 1802195444, 476864866, 2238001368, 4066508878, 1812370925,
  453092731, 2181625025, 4111451223, 1706088902, 314042704, 2344532202,
  4240017532, 1658658271, 366619977, 2362670323, 4224994405, 1303535960,
  984961486, 2747007092, 3569037538, 1256170817, 1037604311, 2765210733,
  3554079995, 1131014506, 879679996, 2909243462, 3663771856, 1141124467,
  855842277, 2852801631, 3708648649, 1342533948, 654459306, 3188396048,
  3373015174, 1466479909, 544179635, 3110523913, 3462522015, 1591671054,
  702138776, 2966460450, 3352799412, 1504918807, 783551873, 3082640443,
  3233442989, 3988292384, 2596254646, 62317068, 1957810842, 3939845945,
  2647816111, 81470997, 1943803523, 3814918930, 2489596804, 225274430,
  2053790376, 3826175755, 2466906013, 167816743, 2097651377, 4027552580,
  2265490386, 503444072, 1762050814, 4150417245, 2154129355, 426522225,
  1852507879, 4275313526, 2312317920, 282753626, 1742555852, 4189708143,
  2394877945, 397917763, 1622183637, 3604390888, 2714866558, 953729732,
  1340076626, 3518719985, 2797360999, 1068828381, 1219638859, 3624741850,
  2936675148, 906185462, 1090812512, 3747672003, 2825379669, 829329135,
  1181335161, 3412177804, 3160834842, 628085408, 1382605366, 3423369109,
  3138078467, 570562233, 1426400815, 3317316542, 2998733608, 733239954,
  1555261956, 3268935591, 3050360625, 752459403, 1541320221, 2607071920,
  3965973030, 1969922972, 40735498, 2617837225, 3943577151, 1913087877,
  83908371, 2512341634, 3803740692, 2075208622, 213261112, 2463272603,
  3855990285, 2094854071, 198958881, 2262029012, 4057260610, 1759359992,
  534414190, 2176718541, 4139329115, 1873836001, 414664567, 2282248934,
  4279200368, 1711684554, 285281116, 2405801727, 4167216745, 1634467795,
  376229701, 2685067896, 3608007406, 1308918612, 956543938, 2808555105,
  3495958263, 1231636301, 1047427035, 2932959818, 3654703836, 1088359270,
  936918000, 2847714899, 3736837829, 1202900863, 817233897, 3183342108,
  3401237130, 1404277552, 615818150, 3134207493, 3453421203, 1423857449,
  601450431, 3009837614, 3294710456, 1567103746, 711928724, 3020668471,
  3272380065, 1510334235, 755167117]

/-- Two's-complement XOR on Python ints, written out on sign cases using
`~a = -a - 1` and `(~a) ^^^ b = ~(a ^^^ b)`; on two non-negatives it is the
XOR of the underlying naturals. -/
def pyXor (a b : Int) : Int :=
  if 0 ≤ a then
    if 0 ≤ b then ((a.toNat ^^^ b.toNat : Nat) : Int)
    else -((a.toNat ^^^ (-b - 1).toNat : Nat) : Int) - 1
  else
    if 0 ≤ b then -(((-a - 1).toNat ^^^ b.toNat : Nat) : Int) - 1
    else (((-a - 1).toNat ^^^ (-b - 1).toNat : Nat) : Int)

/-- Two's-complement `a & 255` on a Python int: bitwise AND with the mask
`2^8 - 1` extracts the low byte, i.e. `a mod 2^8` (non-negative). -/
def pyAnd255 (a : Int) : Int := a.emod 256

/-- Source constant `MAX32INT = 4294967295`. -/
def MAX32INT : Int := 4294967295

/-- `_right_shift_unsigned` (source lines 62–66).  `ctypes.c_uint32(num).value`
truncates to `num mod 2^32` (non-negative), Python `>>` on a non-negative int
is the `Nat` shift, and Python `%` with a positive modulus is `Int.emod`. -/
def _right_shift_unsigned (num : Int) (bit : Nat) : Int :=
  ((((num.emod 4294967296).toNat >>> bit : Nat) : Int) + (MAX32INT + 1)) %
    (2 * (MAX32INT + 1)) - MAX32INT - 1

/-- The loop body of `mrc` over the characters it visits.  `none` models the
`IndexError` Python raises when `(o & 255) ^ ord(e[n])` is not a valid index
into the 256-entry table (which happens exactly when the code point is
`≥ 256`). -/
def mrcLoop : Int → List Nat → Option Int
  | o, [] => some o
  | o, c :: cs =>
    match CRC32_TABLE.get? ((pyAnd255 o).toNat ^^^ c) with
    | none => none
    | some t => mrcLoop (pyXor t (_right_shift_unsigned o 8)) cs

/-- `mrc` (source lines 68–73): the loop `for n in range(min(57, len(e)))`
reads exactly the characters `e.take 57`; seeded at `-1`; finalised with
`o ^ -1 ^ 3988292384` on Python ints. -/
def mrc (e : List Nat) : Option Int :=
  match mrcLoop (-1) (e.take 57) with
  | none => none
  | some o => some (pyXor (pyXor o (-1)) 3988292384)

/-- The permuted Base64 alphabet of the source, as code points. -/
def BASE64_CHARS : List Nat :=
  codes "ZmserbBoHQtNP+wOcza/LpngG8yJq42KWYj0DSfdikx3VT16IlUAFM97hECvuRX5"

/-- One symbol of the custom alphabet.  Every call site masks the index below
64 or feeds a value that is `< 64` for byte-valued input, so the default is
never read there; Python would raise on an out-of-range index. -/
def b64char (i : Nat) : Nat := BASE64_CHARS.getD i 63

/-- Python `range(start, stop, step)` for a positive step. -/
def pyRange (start stop step : Nat) : List Nat :=
  List.range' start ((stop - start + step - 1) / step) step

/-- `_triplet_to_base64` (source lines 75–82). -/
def _triplet_to_base64 (e : Nat) : List Nat :=
  [b64char (e >>> 18 &&& 63), b64char (e >>> 12 &&& 63),
   b64char (e >>> 6 &&& 63), b64char (e &&& 63)]

/-- `_encode_chunk` (source lines 84–90).  `data[i]` is in range at every call
(the caller keeps `fin ≤ data.length` a multiple of 3), so `getD` with an
arbitrary default is the Python list access. -/
def _encode_chunk (data : List Nat) (start fin : Nat) : List Nat :=
  ((pyRange start fin 3).map fun i =>
    _triplet_to_base64 ((data.getD i 0 <<< 16 &&& 0xFF0000) +
      (data.getD (i + 1) 0 <<< 8 &&& 0xFF00) + (data.getD (i + 2) 0 &&& 0xFF))).flatten

/-- `b64_encode` (source lines 106–122): the full-triplet part is processed in
16383-byte chunks, then the 1- or 2-byte remainder is padded with `==` / `=`
(code point 61). -/
def b64_encode (data : List Nat) : List Nat :=
  let length := data.length
  let remainder := length % 3
  let main_length := length - remainder
  let chunks := (pyRange 0 main_length 16383).map fun i =>
    _encode_chunk data i (min (i + 16383) main_length)
  let tail : List Nat :=
    if remainder = 1 then
      let a := data.getD (length - 1) 0
      [b64char (a >>> 2), b64char (a <<< 4 &&& 63), 61, 61]
    else if remainder = 2 then
      let a := (data.getD (length - 2) 0 <<< 8) + data.getD (length - 1) 0
      [b64char (a >>> 10), b64char (a >>> 4 &&& 63), b64char (a <<< 2 &&& 63), 61]
    else []
  chunks.flatten ++ tail

/-- Decimal digits of `n`, least significant first; `fuel ≥ n` bounds the
recursion (the digit count never exceeds the value, so the first arm's
fallback is never reached from `natToDecStr`). -/
def natDigitsRev : Nat → Nat → List Nat
  | 0, n => [48 + n % 10]
  | fuel + 1, n => if n < 10 then [48 + n] else (48 + n % 10) :: natDigitsRev fuel (n / 10)

/-- Python `str` of a non-negative int: decimal digits. -/
def natToDecStr (n : Nat) : List Nat := (natDigitsRev n n).reverse

/-- Python `str` of an int: decimal digits with a leading `-` when negative. -/
def intToDecStr (n : Int) : List Nat :=
  if n < 0 then 45 :: natToDecStr (-n).toNat else natToDecStr n.toNat

/-- A JSON-serializable Python scalar.  String and int values are all the
repository's signing payloads and the claims need; nested containers are out
of scope. -/
inductive PyScalar where
  | str (s : List Nat)
  | int (n : Int)
deriving DecidableEq

/-- Python `str()` of a scalar value (line 146 of the source). -/
def pyStr : PyScalar → List Nat
  | .str s => s
  | .int n => intToDecStr n

/-- A `\uXXXX` escape with lowercase hex digits. -/
def uEsc (n : Nat) : List Nat :=
  [92, 117, hexLower (n / 4096 % 16), hexLower (n / 256 % 16),
   hexLower (n / 16 % 16), hexLower (n % 16)]

/-- `json.dumps` escaping of one string character.  Both modes escape `"`,
`\`, and controls (`\b \t \n \f \r` shorthands, `\u00XX` otherwise); with
`ensure_ascii` (the default, used by the envelope builders) every character
outside `0x20`–`0x7E` is also escaped, as `\uXXXX` or a surrogate pair; with
`ensure_ascii=False` (used by the POST sign-string) it stays raw. -/
def jsonEscapeChar (ascii : Bool) (c : Nat) : List Nat :=
  if c = 34 then [92, 34]
  else if c = 92 then [92, 92]
  else if c = 8 then [92, 98]
  else if c = 9 then [92, 116]
  else if c = 10 then [92, 110]
  else if c = 12 then [92, 102]
  else if c = 13 then [92, 114]
  else if c < 32 then uEsc c
  else if ascii ∧ 126 < c then
    if c < 0x10000 then uEsc c
    else uEsc (0xD800 + (c - 0x10000) / 0x400) ++ uEsc (0xDC00 + (c - 0x10000) % 0x400)
  else [c]

/-- Python `sep.join(parts)`. -/
def joinSep (sep : List Nat) : List (List Nat) → List Nat
  | [] => []
  | [a] => a
  | a :: rest => a ++ sep ++ joinSep sep rest

/-- A JSON string literal. -/
def jsonString (ascii : Bool) (s : List Nat) : List Nat :=
  [34] ++ s.flatMap (jsonEscapeChar ascii) ++ [34]

/-- A JSON scalar value. -/
def jsonScalar (ascii : Bool) : PyScalar → List Nat
  | .str s => jsonString ascii s
  | .int n => intToDecStr n

/-- `json.dumps(d, separators=(",", ":"))` of a string-keyed mapping, in
iteration order; `ascii` is the `ensure_ascii` mode. -/
def jsonDumps (ascii : Bool) (d : List (List Nat × PyScalar)) : List Nat :=
  [123] ++
    joinSep [44]
      (d.map fun kv => jsonString ascii kv.1 ++ [58] ++ jsonScalar ascii kv.2) ++
  [125]

/-- The `data` argument of the sign-string builder: a mapping or a raw
string (`Optional[Union[Dict, str]]`); `none` at the call site is Python
`None`. -/
inductive PyData where
  | dict (d : List (List Nat × PyScalar))
  | str (s : List Nat)
deriving DecidableEq

/-- The ASCII fragment of Python `str.upper()`; the repository only ever
dispatches on ASCII method names. -/
def pyUpper (s : List Nat) : List Nat :=
  s.map fun c => if 97 ≤ c ∧ c ≤ 122 then c - 32 else c

/-- `_build_sign_string` (source lines 130–152).  `method.upper() == "POST"`
selects the POST branch (uri, plus the compact `ensure_ascii=False` JSON of a
dict body or a raw string body verbatim); every other method falls to the
query-string branch: a falsy body (`None`, empty dict, empty string) gives
the uri alone, a dict gives `uri?k=quote(str(v), safe='')&...` in
iteration order with keys unencoded, a raw string is appended after `?`. -/
def _build_sign_string (uri : List Nat) (data : Option PyData) (method : List Nat) :
    List Nat :=
  if pyUpper method = codes "POST" then
    match data with
    | none => uri
    | some (.dict d) => uri ++ jsonDumps false d
    | some (.str s) => uri ++ s
  else
    match data with
    | none => uri
    | some (.dict []) => uri
    | some (.str []) => uri
    | some (.dict d) =>
      uri ++ [63] ++
        joinSep [38] (d.map fun kv => kv.1 ++ [61] ++ pyQuote [] (pyStr kv.2))
    | some (.str s) => uri ++ [63] ++ s

/-- The 64 MD5 round constants `floor(2^32 * |sin(i+1)|)` of RFC 1321;
`hashlib.md5` is the standard algorithm. -/
def md5K : List Nat := [
  3614090360, 3905402710, 606105819, 3250441966, 4118548399, 1200080426,
  2821735955, 4249261313, 1770035416, 2336552879, 4294925233, 2304563134,
  1804603682, 4254626195, 2792965006, 1236535329, 4129170786, 3225465664,
  643717713, 3921069994, 3593408605, 38016083, 3634488961, 3889429448,
  568446438, 3275163606, 4107603335, 1163531501, 2850285829, 4243563512,
  1735328473, 2368359562, 4294588738, 2272392833, 1839030562, 4259657740,
  2763975236, 1272893353, 4139469664, 3200236656, 681279174, 3936430074,
  3572445317, 76029189, 3654602809, 3873151461, 530742520, 3299628645,
  4096336452, 1126891415, 2878612391, 4237533241, 1700485571, 2399980690,
  4293915773, 2240044497, 1873313359, 4264355552, 2734768916, 1309151649,
  4149444226, 3174756917, 718787259, 3951481745]

/-- The 64 MD5 per-round left-rotation amounts of RFC 1321. -/
def md5S : List Nat := [
  7, 12, 17, 22, 7, 12, 17, 22, 7, 12, 17, 22, 7, 12, 17, 22,
  5, 9, 14, 20, 5, 9, 14, 20, 5, 9, 14, 20, 5, 9, 14, 20,
  4, 11, 16, 23, 4, 11, 16, 23, 4, 11, 16, 23, 4, 11, 16, 23,
  6, 10, 15, 21, 6, 10, 15, 21, 6, 10, 15, 21, 6, 10, 15, 21]

/-- 32-bit left rotation. -/
def rotl32 (x s : Nat) : Nat :=
  ((x % 4294967296) <<< s) % 4294967296 ||| (x % 4294967296) >>> (32 - s)

/-- MD5 round function and message index for round `i` (32-bit `~y` is
`y ^^^ (2^32 - 1)`). -/
def md5FG (i b c d : Nat) : Nat × Nat :=
  if i < 16 then ((b &&& c) ||| ((b ^^^ 4294967295) &&& d), i)
  else if i < 32 then ((d &&& b) ||| ((d ^^^ 4294967295) &&& c), (5 * i + 1) % 16)
  else if i < 48 then (b ^^^ c ^^^ d, (3 * i + 5) % 16)
  else (c ^^^ (b ||| (d ^^^ 4294967295)), (7 * i) % 16)

/-- One MD5 round over the 16-word message block `M`. -/
def md5Round (M : List Nat) (st : Nat × Nat × Nat × Nat) (i : Nat) :
    Nat × Nat × Nat × Nat :=
  let (a, b, c, d) := st
  let fg := md5FG i b c d
  let tmp := (a + fg.1 + md5K.getD i 0 + M.getD fg.2 0) % 4294967296
  (d, (b + rotl32 tmp (md5S.getD i 0)) % 4294967296, b, c)

/-- One MD5 block: 64 rounds, then the Davies–Meyer feed-forward. -/
def md5Block (M : List Nat) (h : Nat × Nat × Nat × Nat) : Nat × Nat × Nat × Nat :=
  let (a, b, c, d) := (List.range 64).foldl (md5Round M) h
  ((h.1 + a) % 4294967296, (h.2.1 + b) % 4294967296,
   (h.2.2.1 + c) % 4294967296, (h.2.2.2 + d) % 4294967296)

/-- Bytes to little-endian 32-bit words, four at a time. -/
def leWords : List Nat → List Nat
  | b0 :: b1 :: b2 :: b3 :: rest =>
    (b0 + b1 * 256 + b2 * 65536 + b3 * 16777216) :: leWords rest
  | _ => []

/-- MD5 padding: `0x80`, zeros to 56 mod 64, then the bit length as a
little-endian 64-bit quantity. -/
def md5Pad (msg : List Nat) : List Nat :=
  msg ++ [128] ++ List.replicate ((119 - msg.length % 64) % 64) 0 ++
    ((List.range 8).map fun i => (8 * msg.length) >>> (8 * i) % 256)

/-- Iterate MD5 over 64-byte blocks. -/
def md5Blocks : List Nat → Nat × Nat × Nat × Nat → Nat × Nat × Nat × Nat
  | [], h => h
  | b :: rest, h =>
    md5Blocks ((b :: rest).drop 64) (md5Block (leWords ((b :: rest).take 64)) h)
termination_by l _ => l.length
decreasing_by simp [List.length_drop]; omega

/-- A 32-bit word as four little-endian bytes. -/
def wordLEBytes (w : Nat) : List Nat :=
  [w % 256, w / 256 % 256, w / 65536 % 256, w / 16777216 % 256]

/-- `hashlib.md5(msg).digest()`: the 16 digest bytes of the standard MD5. -/
def md5Bytes (msg : List Nat) : List Nat :=
  let h := md5Blocks (md5Pad msg) (1732584193, 4023233417, 2562383102, 271733878)
  wordLEBytes h.1 ++ wordLEBytes h.2.1 ++ wordLEBytes h.2.2.1 ++ wordLEBytes h.2.2.2

/-- `.hexdigest()` rendering: two lowercase hex digits per byte. -/
def hexRender (bytes : List Nat) : List Nat :=
  bytes.flatMap fun b => [hexLower (b / 16), hexLower (b % 16)]

/-- `_md5_hex` (source lines 154–156): lowercase hex MD5 of the UTF-8 bytes. -/
def _md5_hex (s : List Nat) : List Nat := hexRender (md5Bytes (utf8Encode s))

/-- Python `str.replace` for a single-character pattern: each occurrence of
`a` becomes `r`, scanning left to right. -/
def pyReplace (a : Nat) (r : List Nat) (s : List Nat) : List Nat :=
  s.flatMap fun c => if c = a then r else [c]

/-- The escaping applied to the sign-string argument (source line 190):
`.replace("\\", "\\\\").replace("'", "\\'").replace("\n", "\\n")`. -/
def escSign (s : List Nat) : List Nat :=
  pyReplace 10 [92, 110] (pyReplace 39 [92, 39] (pyReplace 92 [92, 92] s))

/-- The escaping applied to the md5 argument (source line 191):
`.replace("\\", "\\\\").replace("'", "\\'")` — no newline replacement. -/
def escMd5 (s : List Nat) : List Nat :=
  pyReplace 39 [92, 39] (pyReplace 92 [92, 92] s)

/-- The f-string of source line 193: the JavaScript expression handed to
`page.evaluate`, invoking the page-global `window.mnsv2` with the two escaped
arguments as single-quoted string literals. -/
def jsExpr (sign_str md5_str : List Nat) : List Nat :=
  codes "window.mnsv2('" ++ escSign sign_str ++ codes "', '" ++
    escMd5 md5_str ++ codes "')"

/-- Reading a single-quoted JavaScript string-literal body back: a raw
un-escaped quote would close the literal early and a raw newline is a syntax
error, so both give `none`; `\n` decodes to a newline and every other escape
(`\'`, `\\`, ...) decodes to the escaped character itself. -/
def jsUnescapeBody : List Nat → Option (List Nat)
  | [] => some []
  | c :: rest =>
    if c = 92 then
      match rest with
      | [] => none
      | c2 :: rest2 =>
        (jsUnescapeBody rest2).map fun t => (if c2 = 110 then 10 else c2) :: t
    else if c = 39 ∨ c = 10 then none
    else (jsUnescapeBody rest).map fun t => c :: t

/-- Outcome of one `page.evaluate` call: it throws, or returns null/None, or
returns a string. -/
inductive EvalOutcome where
  | throws
  | returns (v : Option (List Nat))
deriving DecidableEq

/-- The Playwright page as seen by the signer: a `b1` read from local
storage (outer `none`: the evaluate call threw; inner `none`: key absent)
and the `window.mnsv2` evaluator, keyed by the expression text it is given. -/
structure Browser where
  localStorageB1 : Option (Option (List Nat))
  mnsv2 : List Nat → EvalOutcome

/-- `get_b1_from_localstorage` (source lines 179–186): any failure or a
missing key falls back to the empty string. -/
def get_b1_from_localstorage (br : Browser) : List Nat :=
  match br.localStorageB1 with
  | none => []
  | some none => []
  | some (some v) => v

/-- `call_mnsv2` (source lines 188–196): build the expression, evaluate it;
an exception or a falsy result (null/None or the empty string) yields `""`. -/
def call_mnsv2 (br : Browser) (sign_str md5_str : List Nat) : List Nat :=
  match br.mnsv2 (jsExpr sign_str md5_str) with
  | .throws => []
  | .returns none => []
  | .returns (some v) => if v = [] then [] else v

/-- `_build_xs_payload` (source lines 158–167): the X-S envelope, encoded
with `ensure_ascii` JSON (the source's `json.dumps(s, separators=(",", ":"))`
keeps the default `ensure_ascii=True`), then the custom codec, prefixed
`XYS_`. -/
def _build_xs_payload (x3_value : List Nat) (data_type : List Nat) :
    Option (List Nat) :=
  (encode_utf8 (jsonDumps true
    [(codes "x0", .str (codes "4.2.1")), (codes "x1", .str (codes "xhs-pc-web")),
     (codes "x2", .str (codes "Mac OS")), (codes "x3", .str x3_value),
     (codes "x4", .str data_type)])).map fun bytes =>
    codes "XYS_" ++ b64_encode bytes

/-- The X-S-Common payload mapping of `_build_xs_common` (source lines
169–176), in the source's insertion order; `none` when `mrc` raises. -/
def buildXsCommonPayload (a1 b1 x_s x_t : List Nat) :
    Option (List (List Nat × PyScalar)) :=
  (mrc (x_t ++ x_s ++ b1)).map fun x9 =>
    [(codes "s0", .int 3), (codes "s1", .str []), (codes "x0", .str (codes "1")),
     (codes "x1", .str (codes "4.2.2")), (codes "x2", .str (codes "Mac OS")),
     (codes "x3", .str (codes "xhs-pc-web")), (codes "x4", .str (codes "4.74.0")),
     (codes "x5", .str a1), (codes "x6", .str x_t), (codes "x7", .str x_s),
     (codes "x8", .str b1), (codes "x9", .int x9), (codes "x10", .int 154),
     (codes "x11", .str (codes "normal"))]

/-- First-match lookup in a string-keyed mapping (Python dict access on the
payload's distinct keys). -/
def dictLookup (k : List Nat) : List (List Nat × PyScalar) → Option PyScalar
  | [] => none
  | kv :: rest => if kv.1 = k then some kv.2 else dictLookup k rest

/-- `_build_xs_common` (source lines 169–177): serialize the payload with
`ensure_ascii` JSON and encode with the custom codec (no `XYS_` prefix). -/
def _build_xs_common (a1 b1 x_s x_t : List Nat) : Option (List Nat) :=
  (buildXsCommonPayload a1 b1 x_s x_t).bind fun p =>
    (encode_utf8 (jsonDumps true p)).map b64_encode

/-- `isinstance(data, (dict, list))` on the body (source line 217); the
model's `PyData` carries no list alternative, no claim needs one. -/
def isDataObject : Option PyData → Bool
  | some (.dict _) => true
  | _ => false

/-- `sign_with_playwright` (source lines 198–227).  `timeMs` stands for
`int(time.time() * 1000)` and `traceId` for `get_trace_id()` — both are
environment inputs of the call.  `none` models the call raising. -/
def sign_with_playwright (br : Browser) (uri : List Nat) (data : Option PyData)
    (a1 : List Nat) (method : List Nat) (timeMs : Nat) (traceId : List Nat) :
    Option (List (List Nat × List Nat)) :=
  let b1 := get_b1_from_localstorage br
  let sign_str := _build_sign_string uri data method
  let md5_str := _md5_hex sign_str
  let x3_value := call_mnsv2 br sign_str md5_str
  let data_type := if isDataObject data then codes "object" else codes "string"
  (_build_xs_payload x3_value data_type).bind fun x_s =>
    let x_t := natToDecStr timeMs
    (_build_xs_common a1 b1 x_s x_t).map fun xsc =>
      [(codes "x-s", x_s), (codes "x-t", x_t),
       (codes "x-s-common", xsc), (codes "x-b3-traceid", traceId)]

/-! ## Basic facts about the embedded primitives -/

theorem rsu_eq (num : Int) (bit : Nat) :
    _right_shift_unsigned num bit = (((num.emod 4294967296).toNat >>> bit : Nat) : Int) := by
  unfold _right_shift_unsigned MAX32INT
  have h1 : (0 : Int) ≤ num.emod 4294967296 := Int.emod_nonneg num (by norm_num)
  have h2 : num.emod 4294967296 < 4294967296 := Int.emod_lt_of_pos num (by norm_num)
  have h3 : (num.emod 4294967296).toNat >>> bit ≤ (num.emod 4294967296).toNat := by
    rw [Nat.shiftRight_eq_div_pow]; exact Nat.div_le_self _ _
  generalize hg : (num.emod 4294967296).toNat >>> bit = w at h3 ⊢
  have h7 : ((w : Int) + 4294967296) % 8589934592 = (w : Int) + 4294967296 :=
    Int.emod_eq_of_lt (by omega) (by omega)
  omega

theorem rsu_bounds (num : Int) (bit : Nat) :
    0 ≤ _right_shift_unsigned num bit ∧ _right_shift_unsigned num bit < 4294967296 := by
  rw [rsu_eq]
  have h1 : (0 : Int) ≤ num.emod 4294967296 := Int.emod_nonneg num (by norm_num)
  have h2 : num.emod 4294967296 < 4294967296 := Int.emod_lt_of_pos num (by norm_num)
  have h3 : (num.emod 4294967296).toNat >>> bit ≤ (num.emod 4294967296).toNat := by
    rw [Nat.shiftRight_eq_div_pow]; exact Nat.div_le_self _ _
  generalize hg : (num.emod 4294967296).toNat >>> bit = w at h3 ⊢
  omega

set_option maxRecDepth 4000 in
theorem crc_table_bounds : ∀ x ∈ CRC32_TABLE, 0 ≤ x ∧ x < 4294967296 := by decide

theorem pyXor_nonneg_bounds (a b : Int) (ha : 0 ≤ a) (hb : 0 ≤ b)
    (ha2 : a < 4294967296) (hb2 : b < 4294967296) :
    0 ≤ pyXor a b ∧ pyXor a b < 4294967296 := by
  unfold pyXor
  rw [if_pos ha, if_pos hb]
  have hx : a.toNat ^^^ b.toNat < 2 ^ 32 := Nat.xor_lt_two_pow (by omega) (by omega)
  constructor
  · positivity
  · exact_mod_cast by omega

/-- The invariant of the `mrc` loop: the accumulator is the seed `-1` or a
32-bit non-negative value. -/
theorem mrcLoop_inv (l : List Nat) : ∀ (o : Int),
    (o = -1 ∨ (0 ≤ o ∧ o < 4294967296)) → ∀ r, mrcLoop o l = some r →
    r = -1 ∨ (0 ≤ r ∧ r < 4294967296) := by
  induction l with
  | nil =>
    intro o ho r h
    unfold mrcLoop at h
    cases h
    exact ho
  | cons c cs ih =>
    intro o ho r h
    unfold mrcLoop at h
    cases hg : CRC32_TABLE.get? ((pyAnd255 o).toNat ^^^ c) with
    | none => rw [hg] at h; cases h
    | some t =>
      rw [hg] at h
      refine ih _ ?_ r h
      have hb := crc_table_bounds t (List.get?_mem hg)
      have hr := rsu_bounds o 8
      exact Or.inr (pyXor_nonneg_bounds t _ hb.1 hr.1 hb.2 hr.2)

/-- Range of the finalisation `o ^ -1 ^ 3988292384` over the loop invariant. -/
theorem mrc_range (s : List Nat) (r : Int) (h : mrc s = some r) :
    -4294967296 ≤ r ∧ r < 4294967296 := by
  unfold mrc at h
  cases hl : mrcLoop (-1) (s.take 57) with
  | none => rw [hl] at h; cases h
  | some o =>
    rw [hl] at h
    injection h with h
    subst h
    rcases mrcLoop_inv _ _ (Or.inl rfl) o hl with ho | ho
    · subst ho; decide
    · have h1 : pyXor o (-1) = -o - 1 := by
        unfold pyXor
        rw [if_pos ho.1, if_neg (by norm_num : ¬ (0 : Int) ≤ -1)]
        have e0 : ((-(-1 : Int)) - 1).toNat = 0 := rfl
        rw [e0, Nat.xor_zero]
        omega
      rw [h1]
      unfold pyXor
      rw [if_neg (show ¬ (0 : Int) ≤ -o - 1 by omega),
        if_pos (show (0 : Int) ≤ 3988292384 by norm_num)]
      have he : (-(-o - 1) - 1 : Int).toNat = o.toNat := by omega
      rw [he]
      have hx : o.toNat ^^^ (3988292384 : Int).toNat < 2 ^ 32 :=
        Nat.xor_lt_two_pow (by omega) (by decide)
      omega

/-- Once the accumulator is a 32-bit non-negative value it stays one. -/
theorem mrcLoop_nonneg (l : List Nat) : ∀ o : Int, 0 ≤ o → o < 4294967296 →
    ∀ r, mrcLoop o l = some r → 0 ≤ r ∧ r < 4294967296 := by
  induction l with
  | nil =>
    intro o h0 h1 r h
    unfold mrcLoop at h
    cases h
    exact ⟨h0, h1⟩
  | cons c cs ih =>
    intro o h0 h1 r h
    unfold mrcLoop at h
    cases hg : CRC32_TABLE.get? ((pyAnd255 o).toNat ^^^ c) with
    | none => rw [hg] at h; cases h
    | some t =>
      rw [hg] at h
      have hb := crc_table_bounds t (List.get?_mem hg)
      have hrs := rsu_bounds o 8
      have hx := pyXor_nonneg_bounds t _ hb.1 hrs.1 hb.2 hrs.2
      exact ih _ hx.1 hx.2 r h

/-- One successful step of the `mrc` loop. -/
theorem mrcLoop_cons_some (o : Int) (c : Nat) (cs : List Nat) (t : Int)
    (hget : CRC32_TABLE.get? ((pyAnd255 o).toNat ^^^ c) = some t) :
    mrcLoop o (c :: cs) = mrcLoop (pyXor t (_right_shift_unsigned o 8)) cs := by
  show (match CRC32_TABLE.get? ((pyAnd255 o).toNat ^^^ c) with
    | none => none
    | some t => mrcLoop (pyXor t (_right_shift_unsigned o 8)) cs) =
    mrcLoop (pyXor t (_right_shift_unsigned o 8)) cs
  rw [hget]

/-- The finalisation `o ^ -1 ^ 3988292384` of a 32-bit non-negative
accumulator is negative: XOR with `-1` complements the sign. -/
theorem mrc_final_neg (o : Int) (h0 : 0 ≤ o) (h1 : o < 4294967296) :
    pyXor (pyXor o (-1)) 3988292384 < 0 := by
  have hx1 : pyXor o (-1) = -o - 1 := by
    unfold pyXor
    rw [if_pos h0, if_neg (by norm_num : ¬ (0 : Int) ≤ -1)]
    have e0 : ((-(-1 : Int)) - 1).toNat = 0 := rfl
    rw [e0, Nat.xor_zero]
    omega
  rw [hx1]
  unfold pyXor
  rw [if_neg (show ¬ (0 : Int) ≤ -o - 1 by omega),
    if_pos (show (0 : Int) ≤ 3988292384 by norm_num)]
  have he : (-(-o - 1) - 1 : Int).toNat = o.toNat := by omega
  rw [he]
  have hge : (0 : Int) ≤ ((o.toNat ^^^ (3988292384 : Int).toNat : Nat) : Int) := by
    positivity
  omega

set_option maxRecDepth 4000 in
/-- On every non-empty string of in-range characters (code points `< 256`,
where `mrc` evaluates at all), the checksum is negative: the loop runs at
least once, leaving a 32-bit non-negative accumulator, and the finalisation
complements its sign. -/
theorem mrc_neg_of_nonempty (s : List Nat) (hne : s ≠ [])
    (hbytes : ∀ c ∈ s, c < 256) (r : Int) (hr : mrc s = some r) : r < 0 := by
  cases s with
  | nil => exact absurd rfl hne
  | cons c cs =>
    have hc : c < 256 := hbytes c (List.mem_cons_self c cs)
    have hidx : (pyAnd255 (-1)).toNat ^^^ c < 256 := by
      have h255 : (pyAnd255 (-1 : Int)).toNat = 255 := by decide
      rw [h255]
      have hx := Nat.xor_lt_two_pow (show 255 < 2 ^ 8 by norm_num)
        (show c < 2 ^ 8 by omega)
      omega
    have hlen : (pyAnd255 (-1)).toNat ^^^ c < CRC32_TABLE.length := by
      have hl : CRC32_TABLE.length = 256 := by decide
      omega
    have hget := List.get?_eq_get hlen
    have hb := crc_table_bounds (CRC32_TABLE.get ⟨(pyAnd255 (-1)).toNat ^^^ c, hlen⟩)
      (List.get_mem _ _ hlen)
    have hrs := rsu_bounds (-1) 8
    have ho1 := pyXor_nonneg_bounds _ _ hb.1 hrs.1 hb.2 hrs.2
    unfold mrc at hr
    rw [List.take_succ_cons,
      mrcLoop_cons_some (-1) c (cs.take 56) _ hget] at hr
    cases hloop : mrcLoop
        (pyXor (CRC32_TABLE.get ⟨(pyAnd255 (-1)).toNat ^^^ c, hlen⟩)
          (_right_shift_unsigned (-1) 8)) (cs.take 56) with
    | none => rw [hloop] at hr; cases hr
    | some o =>
      rw [hloop] at hr
      injection hr with hr
      subst hr
      have ho := mrcLoop_nonneg (cs.take 56) _ ho1.1 ho1.2 o hloop
      exact mrc_final_neg o ho.1 ho.2

/-! ## C2: POST with an absent or empty body -/

/-- C2 counterexample: with an **empty mapping** body, the POST sign-string is
`uri + "{}"` (the compact JSON of the empty object), not the URI alone, so the
claim's "empty mapping body" case fails on the code. -/
theorem c2_empty_dict_counterexample :
    _build_sign_string (codes "/api/x") (some (.dict [])) (codes "POST") ≠
      codes "/api/x" := by decide

/-- C2 (amended): for every URI, `_build_sign_string` with method `POST`
returns the URI alone for an absent body (`None`) and for the empty-string
body; the empty-mapping body instead appends `"{}"`, the compact JSON
serialization of the empty object. -/
theorem c2_post_empty_body (uri : List Nat) :
    _build_sign_string uri none (codes "POST") = uri ∧
    _build_sign_string uri (some (.str [])) (codes "POST") = uri ∧
    _build_sign_string uri (some (.dict [])) (codes "POST") = uri ++ codes "{}" :=
  ⟨rfl, by show uri ++ [] = uri; simp, rfl⟩

/-! ## C10: case-insensitive method dispatch -/

/-- C10: `_build_sign_string` dispatches on `method.upper() == "POST"`: any
method whose (ASCII) uppercase form is `POST` takes the POST path, and every
other method string — `PUT`, `DELETE`, anything — is handled with the GET
query-string semantics instead of being rejected. -/
theorem c10_method_dispatch (uri : List Nat) (data : Option PyData) (m : List Nat) :
    (pyUpper m = codes "POST" →
      _build_sign_string uri data m = _build_sign_string uri data (codes "POST")) ∧
    (pyUpper m ≠ codes "POST" →
      _build_sign_string uri data m = _build_sign_string uri data (codes "GET")) ∧
    _build_sign_string uri data (codes "post") =
      _build_sign_string uri data (codes "POST") ∧
    _build_sign_string uri data (codes "pOsT") =
      _build_sign_string uri data (codes "POST") ∧
    _build_sign_string uri data (codes "PUT") =
      _build_sign_string uri data (codes "GET") ∧
    _build_sign_string uri data (codes "DELETE") =
      _build_sign_string uri data (codes "GET") := by
  have hpost : ∀ m₀ : List Nat, pyUpper m₀ = codes "POST" →
      _build_sign_string uri data m₀ = _build_sign_string uri data (codes "POST") := by
    intro m₀ h
    unfold _build_sign_string
    rw [if_pos h, if_pos (by decide)]
  have hget : ∀ m₀ : List Nat, pyUpper m₀ ≠ codes "POST" →
      _build_sign_string uri data m₀ = _build_sign_string uri data (codes "GET") := by
    intro m₀ h
    unfold _build_sign_string
    rw [if_neg h, if_neg (by decide)]
  exact ⟨hpost m, hget m, hpost _ (by decide), hpost _ (by decide),
    hget _ (by decide), hget _ (by decide)⟩

/-- C10 witness: a `PUT` request is signed with the GET query-string
semantics. -/
theorem c10_witness :
    _build_sign_string (codes "/w") none (codes "PUT") =
      _build_sign_string (codes "/w") none (codes "GET") :=
  (c10_method_dispatch (codes "/w") none (codes "PUT")).2.1 (by decide)

/-! ## C5: the x9 field of the X-S-Common payload -/

/-- C5: the payload `_build_xs_common` assembles (before Base64 encoding)
carries an `x9` entry equal to `mrc` of the concatenation
`x_t ++ x_s ++ b1`, in that order, whenever that `mrc` evaluates (and the
payload is only built at all when it does). -/
theorem c5_xs_common_x9 (a1 b1 x_s x_t : List Nat) :
    (buildXsCommonPayload a1 b1 x_s x_t).bind (dictLookup (codes "x9")) =
      (mrc (x_t ++ x_s ++ b1)).map PyScalar.int := by
  unfold buildXsCommonPayload
  cases mrc (x_t ++ x_s ++ b1) with
  | none => rfl
  | some r => rfl

/-! ## C3: mrc depends only on the first 57 characters -/

/-- C3 counterexample: the claim's unguarded "equivalently, for every s,
`mrc(s) == mrc(s[:57] + anything)`" fails for strings shorter than 57
characters, where the appended characters are still consumed: at `s = ""`,
`t = "a"` the two sides differ. -/
theorem c3_short_counterexample :
    mrc (List.take 57 ([] : List Nat) ++ codes "a") ≠ mrc ([] : List Nat) := by
  decide

/-- C3 (amended): `mrc` depends only on the first 57 characters — for every
`s` of length at least 57 and every `t`, `mrc (s[:57] ++ t) = mrc (s[:57])`
(equivalently `mrc s = mrc (s[:57] ++ t)` for such `s`); the unguarded form
additionally needs `|s| ≥ 57`, since for shorter `s` the appended characters
are read by the loop. -/
theorem c3_mrc_first57 (s t : List Nat) (h : 57 ≤ s.length) :
    mrc (s.take 57 ++ t) = mrc (s.take 57) := by
  unfold mrc
  have h1 : (s.take 57 ++ t).take 57 = (s.take 57).take 57 :=
    List.take_append_of_le_length (by rw [List.length_take]; omega)
  rw [h1]

/-- C3 witness at a concrete 57-character string. -/
theorem c3_witness :
    mrc ((List.replicate 57 48).take 57 ++ codes "a") =
      mrc ((List.replicate 57 48).take 57) :=
  c3_mrc_first57 (List.replicate 57 48) (codes "a") (by decide)

/-! ## C4: 32-bit semantics of the shifts, range of the checksum -/

/-- C4 counterexample: the returned checksum is **not** a 32-bit unsigned
value: already on `"a"` the final `o ^ -1 ^ 3988292384` of Python ints is
negative. -/
theorem c4_negative_counterexample :
    mrc (codes "a") = some (-4210082461) ∧ ((-4210082461 : Int) < 0) := by
  constructor
  · decide
  · decide

/-- C4 (amended): every right shift of `mrc` is an unsigned shift on a 32-bit
value — `_right_shift_unsigned num bit` equals `(num mod 2^32) >>> bit`, a
non-negative value below `2^32` — but the returned checksum is only bounded by
`-2^32 ≤ mrc(s) < 2^32`, and on every non-empty input of in-range characters
(code points `< 256`) the final XOR with `-1` makes it negative, so it is not
itself a 32-bit unsigned value. -/
theorem c4_shift_unsigned_checksum_range :
    (∀ (num : Int) (bit : Nat),
      _right_shift_unsigned num bit =
        (((num.emod 4294967296).toNat >>> bit : Nat) : Int) ∧
      0 ≤ _right_shift_unsigned num bit ∧
      _right_shift_unsigned num bit < 4294967296) ∧
    (∀ (s : List Nat) (r : Int), mrc s = some r →
      -4294967296 ≤ r ∧ r < 4294967296) ∧
    (∀ (s : List Nat) (r : Int), s ≠ [] → (∀ c ∈ s, c < 256) →
      mrc s = some r → r < 0) :=
  ⟨fun num bit => ⟨rsu_eq num bit, rsu_bounds num bit⟩,
   fun s r h => mrc_range s r h,
   fun s r hne hb h => mrc_neg_of_nonempty s hne hb r h⟩

/-- C4 witness: the bounds and the negativity instantiated at `mrc "a"`. -/
theorem c4_witness :
    (-4294967296 ≤ (-4210082461 : Int) ∧ (-4210082461 : Int) < 4294967296) ∧
    (-4210082461 : Int) < 0 :=
  ⟨c4_shift_unsigned_checksum_range.2.1 (codes "a") (-4210082461) (by decide),
   c4_shift_unsigned_checksum_range.2.2 (codes "a") (-4210082461)
     (by decide) (by decide) (by decide)⟩

/-! ## C1: GET canonical sign-string -/

/-- C1: for every URI and non-empty mapping body, the GET sign-string is the
URI, `?`, then `&`-separated `key=quote(str(value), safe='')` pairs in the
mapping's iteration order, keys unencoded; in particular the spec's search
scenario produces exactly
`/api/sns/web/v1/search/notes?keyword=%E6%B5%8B%E8%AF%95&page=1`. -/
theorem c1_get_query_string (uri : List Nat) (d : List (List Nat × PyScalar))
    (h : d ≠ []) :
    _build_sign_string uri (some (.dict d)) (codes "GET") =
      uri ++ codes "?" ++
        joinSep (codes "&")
          (d.map fun kv => kv.1 ++ codes "=" ++ pyQuote [] (pyStr kv.2)) ∧
    _build_sign_string (codes "/api/sns/web/v1/search/notes")
      (some (.dict [(codes "keyword", .str (codes "测试")),
                    (codes "page", .int 1)]))
      (codes "GET") =
      codes "/api/sns/web/v1/search/notes?keyword=%E6%B5%8B%E8%AF%95&page=1" := by
  constructor
  · unfold _build_sign_string
    rw [if_neg (by decide)]
    match d, h with
    | kv :: rest, _ => rfl
  · decide

/-- C1 witness: the general form instantiated at a one-entry mapping. -/
theorem c1_witness :
    _build_sign_string (codes "/a") (some (.dict [(codes "k", .int 7)]))
      (codes "GET") =
      codes "/a" ++ codes "?" ++
        joinSep (codes "&")
          ([(codes "k", PyScalar.int 7)].map fun kv =>
            kv.1 ++ codes "=" ++ pyQuote [] (pyStr kv.2)) :=
  (c1_get_query_string (codes "/a") [(codes "k", PyScalar.int 7)] (by decide)).1

/-! ## C6: shape of the custom Base64 encoding -/

theorem triplet_length (e : Nat) : (_triplet_to_base64 e).length = 4 := rfl

theorem sum_map_four (r : List Nat) : (r.map fun _ => (4 : Nat)).sum = 4 * r.length := by
  induction r with
  | nil => rfl
  | cons a t ih => simp only [List.map_cons, List.sum_cons, List.length_cons, ih]; omega

/-- One chunk encodes `ceil((fin - start) / 3)` triplets into 4 symbols
each. -/
theorem encode_chunk_length (data : List Nat) (s e : Nat) :
    (_encode_chunk data s e).length = 4 * ((e - s + 2) / 3) := by
  unfold _encode_chunk
  rw [List.length_flatten, List.map_map]
  have h1 : (List.map (List.length ∘ fun i =>
      _triplet_to_base64 ((data.getD i 0 <<< 16 &&& 0xFF0000) +
        (data.getD (i + 1) 0 <<< 8 &&& 0xFF00) + (data.getD (i + 2) 0 &&& 0xFF)))
      (pyRange s e 3)) = (pyRange s e 3).map fun _ => 4 := by
    apply List.map_congr_left
    intro i _
    rfl
  rw [h1, sum_map_four]
  unfold pyRange
  rw [List.length_range']
  omega

/-- Joined length of the 16383-stride chunking of `data[s..m)` when the
stretch has length divisible by 3 and `k` strides cover it. -/
theorem chunks_flatten_length (data : List Nat) (m : Nat) :
    ∀ (k s : Nat), (m - s) % 3 = 0 → m ≤ s + k * 16383 →
    (((List.range' s k 16383).map fun i =>
      _encode_chunk data i (min (i + 16383) m)).flatten).length =
      4 * ((m - s) / 3) := by
  intro k
  induction k with
  | zero =>
    intro s h3 hm
    have : m - s = 0 := by omega
    simp [this]
  | succ k ih =>
    intro s h3 hm
    rw [List.range'_succ, List.map_cons, List.flatten_cons, List.length_append,
      encode_chunk_length, ih (s + 16383) (by omega) (by omega)]
    rcases le_or_lt (s + 16383) m with hc | hc
    · rw [min_eq_left (by omega)]
      omega
    · rw [min_eq_right (by omega)]
      omega

/-- The final two symbols of `X ++ [a, b, c, d]`. -/
theorem drop_last_two {α : Type} (X : List α) (a b c d : α) :
    (X ++ [a, b, c, d]).drop ((X ++ [a, b, c, d]).length - 2) = [c, d] := by
  have h1 : X ++ [a, b, c, d] = (X ++ [a, b]) ++ [c, d] := by simp
  have h2 : (X ++ [a, b, c, d]).length - 2 = (X ++ [a, b]).length := by
    simp
  rw [h2, h1, List.drop_left]

/-- The final symbol of `X ++ [a, b, c, d]`. -/
theorem drop_last_one {α : Type} (X : List α) (a b c d : α) :
    (X ++ [a, b, c, d]).drop ((X ++ [a, b, c, d]).length - 1) = [d] := by
  have h1 : X ++ [a, b, c, d] = (X ++ [a, b, c]) ++ [d] := by simp
  have h2 : (X ++ [a, b, c, d]).length - 1 = (X ++ [a, b, c]).length := by
    simp
  rw [h2, h1, List.drop_left]

theorem getD_of_drop {α : Type} (l : List α) (k : Nat) (c d e : α)
    (h : l.drop k = [c, d]) : l.getD k e = c := by
  have h0 : l[k]? = some c := by
    have h1 := List.getElem?_drop l k 0
    rw [h] at h1
    simpa using h1.symm
  rw [List.getD_eq_getElem?_getD, h0]
  rfl

/-- Either a real table entry or the (never read) default. -/
theorem getD_mem_or {α : Type} (l : List α) (i : Nat) (d : α) :
    l.getD i d ∈ l ∨ l.getD i d = d := by
  rcases Nat.lt_or_ge i l.length with h | h
  · rw [List.getD_eq_getElem l d h]
    exact Or.inl (List.getElem_mem h)
  · exact Or.inr (List.getD_eq_default l d h)

theorem b64char_ne_pad (i : Nat) : b64char i ≠ 61 := by
  show BASE64_CHARS.getD i 63 ≠ 61
  rcases getD_mem_or BASE64_CHARS i 63 with h | h
  · have hall : ∀ x ∈ BASE64_CHARS, x ≠ 61 := by decide
    exact hall _ h
  · omega

/-- C6: encoding `n` bytes yields exactly `ceil(n/3) * 4` symbols; a 1-byte
remainder ends in `==`, a 2-byte remainder ends in a single `=` (the symbol
before it is a real alphabet symbol), and the empty input encodes to the
empty string rather than erroring. -/
theorem c6_b64_shape (data : List Nat) (_hbytes : ∀ b ∈ data, b < 256) :
    (b64_encode data).length = (data.length + 2) / 3 * 4 ∧
    b64_encode ([] : List Nat) = [] ∧
    (data.length % 3 = 1 →
      (b64_encode data).drop ((b64_encode data).length - 2) = [61, 61]) ∧
    (data.length % 3 = 2 →
      (b64_encode data).drop ((b64_encode data).length - 1) = [61] ∧
      (b64_encode data).getD ((b64_encode data).length - 2) 0 ≠ 61) := by
  have hsplit : b64_encode data =
      ((List.range' 0 ((data.length - data.length % 3 + 16382) / 16383) 16383).map
        fun i => _encode_chunk data i (min (i + 16383) (data.length - data.length % 3))).flatten ++
      (if data.length % 3 = 1 then
        [b64char (data.getD (data.length - 1) 0 >>> 2),
         b64char (data.getD (data.length - 1) 0 <<< 4 &&& 63), 61, 61]
      else if data.length % 3 = 2 then
        [b64char (((data.getD (data.length - 2) 0 <<< 8) +
            data.getD (data.length - 1) 0) >>> 10),
         b64char (((data.getD (data.length - 2) 0 <<< 8) +
            data.getD (data.length - 1) 0) >>> 4 &&& 63),
         b64char (((data.getD (data.length - 2) 0 <<< 8) +
            data.getD (data.length - 1) 0) <<< 2 &&& 63), 61]
      else []) := rfl
  have hmainlen : (((List.range' 0 ((data.length - data.length % 3 + 16382) / 16383)
      16383).map fun i =>
        _encode_chunk data i (min (i + 16383) (data.length - data.length % 3))).flatten).length =
      4 * ((data.length - data.length % 3) / 3) := by
    apply chunks_flatten_length
    · omega
    · have h1 := Nat.div_add_mod (data.length - data.length % 3 + 16382) 16383
      have h2 : (data.length - data.length % 3 + 16382) % 16383 < 16383 :=
        Nat.mod_lt _ (by norm_num)
      omega
  refine ⟨?_, rfl, ?_, ?_⟩
  · rw [hsplit, List.length_append, hmainlen]
    have hm3 : data.length % 3 = 0 ∨ data.length % 3 = 1 ∨ data.length % 3 = 2 := by
      omega
    rcases hm3 with h3 | h3 | h3
    · rw [if_neg (by omega), if_neg (by omega)]
      simp only [List.length_nil]
      omega
    · rw [if_pos h3]
      simp only [List.length_cons, List.length_nil]
      omega
    · rw [if_neg (by omega), if_pos h3]
      simp only [List.length_cons, List.length_nil]
      omega
  · intro h1
    rw [hsplit, if_pos h1]
    exact drop_last_two _ _ _ _ _
  · intro h2
    rw [hsplit, if_neg (by omega), if_pos h2]
    refine ⟨drop_last_one _ _ _ _ _, ?_⟩
    have hz := getD_of_drop _ _ _ _ 0 (drop_last_two
      ((List.range' 0 ((data.length - data.length % 3 + 16382) / 16383) 16383).map
        (fun i => _encode_chunk data i (min (i + 16383) (data.length - data.length % 3)))).flatten
      (b64char (((data.getD (data.length - 2) 0 <<< 8) +
          data.getD (data.length - 1) 0) >>> 10))
      (b64char (((data.getD (data.length - 2) 0 <<< 8) +
          data.getD (data.length - 1) 0) >>> 4 &&& 63))
      (b64char (((data.getD (data.length - 2) 0 <<< 8) +
          data.getD (data.length - 1) 0) <<< 2 &&& 63)) 61)
    rw [hz]
    exact b64char_ne_pad _

/-- C6 witness at the four-byte input `[1, 2, 3, 4]` (a 1-byte remainder). -/
theorem c6_witness :
    (b64_encode [1, 2, 3, 4]).length = (([1, 2, 3, 4] : List Nat).length + 2) / 3 * 4 ∧
    b64_encode ([] : List Nat) = [] ∧
    (([1, 2, 3, 4] : List Nat).length % 3 = 1 →
      (b64_encode [1, 2, 3, 4]).drop ((b64_encode [1, 2, 3, 4]).length - 2) = [61, 61]) ∧
    (([1, 2, 3, 4] : List Nat).length % 3 = 2 →
      (b64_encode [1, 2, 3, 4]).drop ((b64_encode [1, 2, 3, 4]).length - 1) = [61] ∧
      (b64_encode [1, 2, 3, 4]).getD ((b64_encode [1, 2, 3, 4]).length - 2) 0 ≠ 61) :=
  c6_b64_shape [1, 2, 3, 4] (by decide)

/-! ## C7: the percent-encode-then-decode pipeline is UTF-8 -/

theorem always_safe_lt : ∀ c ∈ ALWAYS_SAFE, c < 128 := by decide

theorem safe_eu_lt : ∀ c ∈ codes "~()*!.'", c < 128 := by decide

theorem always_safe_ne37 : ∀ c ∈ ALWAYS_SAFE, c ≠ 37 := by decide

theorem safe_eu_ne37 : ∀ c ∈ codes "~()*!.'", c ≠ 37 := by decide

theorem hexVal_hexUpper : ∀ n : Nat, n < 16 → hexVal (hexUpper n) = some n := by
  decide

theorem pyQuote_cons (safe : List Nat) (c : Nat) (s : List Nat) :
    pyQuote safe (c :: s) =
      (if c ∈ ALWAYS_SAFE ∨ c ∈ safe then [c]
       else (utf8Bytes c).flatMap pctByte) ++ pyQuote safe s := rfl

/-- Decoding consumes one full `%XX` triplet of a byte `b < 256`. -/
theorem decodeQuoted_pct (b : Nat) (hb : b < 256) (r : List Nat) :
    decodeQuoted (pctByte b ++ r) = (decodeQuoted r).map fun t => b :: t := by
  show decodeQuoted (37 :: hexUpper (b / 16) :: hexUpper (b % 16) :: r) = _
  rw [decodeQuoted]
  rw [if_pos rfl]
  rw [hexVal_hexUpper (b / 16) (by omega), hexVal_hexUpper (b % 16) (by omega)]
  show Option.map (fun t => (b / 16 * 16 + b % 16) :: t) (decodeQuoted r) = _
  have hdm : b / 16 * 16 + b % 16 = b := by omega
  rw [hdm]

/-- Decoding passes a raw non-`%` character through. -/
theorem decodeQuoted_raw (c : Nat) (h37 : c ≠ 37) (r : List Nat) :
    decodeQuoted (c :: r) = (decodeQuoted r).map fun t => c :: t := by
  rw [decodeQuoted.eq_def]
  simp only [if_neg h37]

/-- The refinement underlying C7: on every valid code-point string, the
quote-then-percent-decode pipeline of `encode_utf8` computes exactly the
direct UTF-8 byte encoding. -/
theorem encode_utf8_valid : ∀ s : List Nat, (∀ c ∈ s, isValidCP c) →
    encode_utf8 s = some (utf8Encode s) := by
  intro s
  unfold encode_utf8
  induction s with
  | nil => intro _; rfl
  | cons c t ih =>
    intro h
    have hc : isValidCP c := h c (List.mem_cons_self c t)
    have ht : ∀ x ∈ t, isValidCP x := fun x hx => h x (List.mem_cons_of_mem _ hx)
    rw [pyQuote_cons]
    by_cases hsafe : c ∈ ALWAYS_SAFE ∨ c ∈ codes "~()*!.'"
    · rw [if_pos hsafe]
      have hlt : c < 128 := by
        rcases hsafe with hs | hs
        · exact always_safe_lt c hs
        · exact safe_eu_lt c hs
      have h37 : c ≠ 37 := by
        rcases hsafe with hs | hs
        · exact always_safe_ne37 c hs
        · exact safe_eu_ne37 c hs
      show decodeQuoted (c :: pyQuote (codes "~()*!.'") t) = _
      rw [decodeQuoted_raw c h37, ih ht]
      have he : utf8Bytes c = [c] := by unfold utf8Bytes; rw [if_pos (by omega)]
      simp [utf8Encode, he]
    · rw [if_neg hsafe]
      have hv : c < 0xD800 ∨ (0xDFFF < c ∧ c < 0x110000) := hc
      rcases Nat.lt_or_ge c 0x80 with h1 | h1
      · have he : utf8Bytes c = [c] := by unfold utf8Bytes; rw [if_pos h1]
        rw [he]
        simp only [List.flatMap_cons, List.flatMap_nil, List.append_nil,
          List.append_assoc]
        rw [decodeQuoted_pct c (by omega), ih ht]
        simp [utf8Encode, he]
      · rcases Nat.lt_or_ge c 0x800 with h2 | h2
        · have he : utf8Bytes c = [0xC0 + c / 0x40, 0x80 + c % 0x40] := by
            unfold utf8Bytes; rw [if_neg (by omega), if_pos h2]
          rw [he]
          simp only [List.flatMap_cons, List.flatMap_nil, List.append_nil,
            List.append_assoc]
          rw [decodeQuoted_pct _ (by omega), decodeQuoted_pct _ (by omega), ih ht]
          simp [utf8Encode, he]
        · rcases Nat.lt_or_ge c 0x10000 with h3 | h3
          · have he : utf8Bytes c =
                [0xE0 + c / 0x1000, 0x80 + c / 0x40 % 0x40, 0x80 + c % 0x40] := by
              unfold utf8Bytes; rw [if_neg (by omega), if_neg (by omega), if_pos h3]
            rw [he]
            simp only [List.flatMap_cons, List.flatMap_nil, List.append_nil,
              List.append_assoc]
            rw [decodeQuoted_pct _ (by omega), decodeQuoted_pct _ (by omega),
              decodeQuoted_pct _ (by omega), ih ht]
            simp [utf8Encode, he]
          · have hup : c < 0x110000 := by omega
            have he : utf8Bytes c =
                [0xF0 + c / 0x40000, 0x80 + c / 0x1000 % 0x40,
                 0x80 + c / 0x40 % 0x40, 0x80 + c % 0x40] := by
              unfold utf8Bytes
              rw [if_neg (by omega), if_neg (by omega), if_neg (by omega)]
            rw [he]
            simp only [List.flatMap_cons, List.flatMap_nil, List.append_nil,
              List.append_assoc]
            rw [decodeQuoted_pct _ (by omega), decodeQuoted_pct _ (by omega),
              decodeQuoted_pct _ (by omega), decodeQuoted_pct _ (by omega), ih ht]
            simp [utf8Encode, he]

/-- C7: `encode_utf8` — percent-encode with `~()*!.'` unescaped, then fold
percent-triplets back to bytes and other characters to their code points —
produces exactly the UTF-8 byte sequence of the input string. -/
theorem c7_encode_utf8_is_utf8 (s : List Nat) (h : ∀ c ∈ s, isValidCP c) :
    encode_utf8 s = some (utf8Encode s) := encode_utf8_valid s h

/-- C7 witness on a string mixing 1-, 2-, 3- and 4-byte characters and a
quoted ASCII character. -/
theorem c7_witness :
    encode_utf8 (codes "a% é测𝄞~") = some (utf8Encode (codes "a% é测𝄞~")) :=
  c7_encode_utf8_is_utf8 (codes "a% é测𝄞~") (by decide)

/-! ## C9: the browser expression and its escaping -/

theorem pyReplace_cons (a : Nat) (r : List Nat) (c : Nat) (s : List Nat) :
    pyReplace a r (c :: s) = (if c = a then r else [c]) ++ pyReplace a r s := rfl

/-- Character-wise form of the three chained `.replace` calls on the
sign-string argument. -/
theorem escSign_cons (c : Nat) (s : List Nat) :
    escSign (c :: s) =
      (if c = 92 then [92, 92] else if c = 39 then [92, 39]
       else if c = 10 then [92, 110] else [c]) ++ escSign s := by
  by_cases h92 : c = 92
  · subst h92; simp [escSign, pyReplace]
  · by_cases h39 : c = 39
    · subst h39; simp [escSign, pyReplace]
    · by_cases h10 : c = 10
      · subst h10; simp [escSign, pyReplace]
      · simp [escSign, pyReplace, h92, h39, h10]

/-- Character-wise form of the two chained `.replace` calls on the md5
argument. -/
theorem escMd5_cons (c : Nat) (s : List Nat) :
    escMd5 (c :: s) =
      (if c = 92 then [92, 92] else if c = 39 then [92, 39] else [c]) ++
        escMd5 s := by
  by_cases h92 : c = 92
  · subst h92; simp [escMd5, pyReplace]
  · by_cases h39 : c = 39
    · subst h39; simp [escMd5, pyReplace]
    · simp [escMd5, pyReplace, h92, h39]

theorem jsUnescapeBody_cons (c : Nat) (rest : List Nat) :
    jsUnescapeBody (c :: rest) =
      if c = 92 then
        match rest with
        | [] => none
        | c2 :: rest2 =>
          (jsUnescapeBody rest2).map fun t => (if c2 = 110 then 10 else c2) :: t
      else if c = 39 ∨ c = 10 then none
      else (jsUnescapeBody rest).map fun t => c :: t := by
  rw [jsUnescapeBody.eq_def]

/-- The sign-string escaping embeds any string safely: reading the escaped
text back as a single-quoted JS literal body succeeds (no premature quote, no
raw newline) and recovers the original string exactly. -/
theorem jsUnescape_escSign (s : List Nat) : jsUnescapeBody (escSign s) = some s := by
  induction s with
  | nil => rfl
  | cons c t ih =>
    rw [escSign_cons]
    by_cases h92 : c = 92
    · subst h92
      show jsUnescapeBody (92 :: 92 :: escSign t) = _
      rw [jsUnescapeBody_cons, if_pos rfl]
      show (jsUnescapeBody (escSign t)).map _ = _
      rw [ih]
      rfl
    · by_cases h39 : c = 39
      · subst h39
        show jsUnescapeBody (92 :: 39 :: escSign t) = _
        rw [jsUnescapeBody_cons, if_pos rfl]
        show (jsUnescapeBody (escSign t)).map _ = _
        rw [ih]
        rfl
      · by_cases h10 : c = 10
        · subst h10
          show jsUnescapeBody (92 :: 110 :: escSign t) = _
          rw [jsUnescapeBody_cons, if_pos rfl]
          show (jsUnescapeBody (escSign t)).map _ = _
          rw [ih]
          rfl
        · rw [if_neg h92, if_neg h39, if_neg h10]
          show jsUnescapeBody (c :: escSign t) = _
          rw [jsUnescapeBody_cons, if_neg h92, if_neg (by omega), ih]
          rfl

/-- The md5-argument escaping (no newline replacement) embeds any
newline-free string safely and recovers it exactly. -/
theorem jsUnescape_escMd5 (s : List Nat) (h10 : 10 ∉ s) :
    jsUnescapeBody (escMd5 s) = some s := by
  induction s with
  | nil => rfl
  | cons c t ih =>
    have hc10 : c ≠ 10 := fun h => h10 (h ▸ List.mem_cons_self c t)
    have ht10 : 10 ∉ t := fun h => h10 (List.mem_cons_of_mem _ h)
    rw [escMd5_cons]
    by_cases h92 : c = 92
    · subst h92
      show jsUnescapeBody (92 :: 92 :: escMd5 t) = _
      rw [jsUnescapeBody_cons, if_pos rfl]
      show (jsUnescapeBody (escMd5 t)).map _ = _
      rw [ih ht10]
      rfl
    · by_cases h39 : c = 39
      · subst h39
        show jsUnescapeBody (92 :: 39 :: escMd5 t) = _
        rw [jsUnescapeBody_cons, if_pos rfl]
        show (jsUnescapeBody (escMd5 t)).map _ = _
        rw [ih ht10]
        rfl
      · rw [if_neg h92, if_neg h39]
        show jsUnescapeBody (c :: escMd5 t) = _
        rw [jsUnescapeBody_cons, if_neg h92, if_neg (by omega), ih ht10]
        rfl

theorem hex_lower_ne_specials : ∀ c ∈ HEX_LOWER, c ≠ 10 ∧ c ≠ 39 ∧ c ≠ 92 := by
  decide

/-- The digest bytes are bytes: every entry of `md5Bytes` is below 256. -/
theorem md5Bytes_lt (msg : List Nat) : ∀ b ∈ md5Bytes msg, b < 256 := by
  intro b hb
  unfold md5Bytes wordLEBytes at hb
  simp only [List.mem_append, List.mem_cons, List.not_mem_nil, or_false] at hb
  omega

/-- Every character of a `.hexdigest()` rendering of bytes is a lowercase
hex digit. -/
theorem hexRender_mem_hex (bytes : List Nat) (hb : ∀ b ∈ bytes, b < 256) :
    ∀ c ∈ hexRender bytes, c ∈ HEX_LOWER := by
  intro c hc
  rcases List.mem_flatMap.mp hc with ⟨b, hbm, hcb⟩
  have hblt := hb b hbm
  have hlen : HEX_LOWER.length = 16 := rfl
  simp only [List.mem_cons, List.not_mem_nil, or_false] at hcb
  rcases hcb with h | h
  · subst h
    unfold hexLower
    rw [List.getD_eq_getElem HEX_LOWER 63 (by rw [hlen]; omega)]
    exact List.getElem_mem _
  · subst h
    unfold hexLower
    rw [List.getD_eq_getElem HEX_LOWER 63 (by rw [hlen]; omega)]
    exact List.getElem_mem _

/-- C9: the expression handed to the evaluator is
`window.mnsv2('<esc sign>', '<esc md5>')` with the sign-string and
`md5Hex = hex(MD5(UTF-8(signString)))` embedded as the two string-literal
arguments; both embeddings are safe — parsing each literal body back
succeeds (so no unescaped quote or raw newline survives, backslash, quote
and newline having been escaped or absent) and recovers the exact
argument. -/
theorem c9_js_expression (sign_str : List Nat) :
    jsExpr sign_str (_md5_hex sign_str) =
      codes "window.mnsv2('" ++ escSign sign_str ++ codes "', '" ++
        escMd5 (_md5_hex sign_str) ++ codes "')" ∧
    jsUnescapeBody (escSign sign_str) = some sign_str ∧
    jsUnescapeBody (escMd5 (_md5_hex sign_str)) = some (_md5_hex sign_str) ∧
    _md5_hex sign_str = hexRender (md5Bytes (utf8Encode sign_str)) := by
  refine ⟨rfl, jsUnescape_escSign sign_str, ?_, rfl⟩
  apply jsUnescape_escMd5
  intro hmem
  exact ((hex_lower_ne_specials 10
    (hexRender_mem_hex _ (md5Bytes_lt _) 10 hmem)).1) rfl

/-! ## C8: evaluator failure is non-fatal -/

theorem natDigitsRev_digits : ∀ (fuel n : Nat), ∀ c ∈ natDigitsRev fuel n,
    48 ≤ c ∧ c < 58 := by
  intro fuel
  induction fuel with
  | zero =>
    intro n c hc
    simp only [natDigitsRev, List.mem_cons, List.not_mem_nil, or_false] at hc
    omega
  | succ f ih =>
    intro n c hc
    unfold natDigitsRev at hc
    by_cases h10 : n < 10
    · rw [if_pos h10] at hc
      simp only [List.mem_cons, List.not_mem_nil, or_false] at hc
      omega
    · rw [if_neg h10] at hc
      rcases List.mem_cons.mp hc with h | h
      · omega
      · exact ih _ c h

theorem natDigitsRev_ne_nil (fuel n : Nat) : natDigitsRev fuel n ≠ [] := by
  cases fuel with
  | zero => simp [natDigitsRev]
  | succ f => unfold natDigitsRev; split <;> simp

theorem natToDecStr_digits (n : Nat) : ∀ c ∈ natToDecStr n, 48 ≤ c ∧ c < 58 := by
  intro c hc
  unfold natToDecStr at hc
  rw [List.mem_reverse] at hc
  exact natDigitsRev_digits n n c hc

theorem natToDecStr_len_pos (n : Nat) : 1 ≤ (natToDecStr n).length := by
  unfold natToDecStr
  rw [List.length_reverse]
  exact List.length_pos_of_ne_nil (natDigitsRev_ne_nil n n)

theorem intToDecStr_lt128 (n : Int) : ∀ c ∈ intToDecStr n, c < 128 := by
  intro c hc
  unfold intToDecStr at hc
  split_ifs at hc
  · rcases List.mem_cons.mp hc with h | h
    · omega
    · have := natToDecStr_digits _ c h
      omega
  · have := natToDecStr_digits _ c hc
    omega

set_option maxRecDepth 4000 in
/-- The loop of `mrc` never raises on byte-valued characters: the table index
`(o & 255) ^ ord(c)` stays below 256. -/
theorem mrcLoop_some : ∀ (l : List Nat), (∀ c ∈ l, c < 256) → ∀ o : Int,
    ∃ r, mrcLoop o l = some r := by
  intro l
  induction l with
  | nil => exact fun _ o => ⟨o, rfl⟩
  | cons c cs ih =>
    intro h o
    have hc : c < 256 := h c (List.mem_cons_self c cs)
    have hcs : ∀ x ∈ cs, x < 256 := fun x hx => h x (List.mem_cons_of_mem _ hx)
    have h1 : (0 : Int) ≤ pyAnd255 o := Int.emod_nonneg o (by norm_num)
    have h2 : pyAnd255 o < 256 := Int.emod_lt_of_pos o (by norm_num)
    have hidx : (pyAnd255 o).toNat ^^^ c < 256 := by
      have h3 : (pyAnd255 o).toNat < 2 ^ 8 := by omega
      have h4 := Nat.xor_lt_two_pow h3 (show c < 2 ^ 8 by omega)
      omega
    have hlen : (pyAnd255 o).toNat ^^^ c < CRC32_TABLE.length := by
      have hl : CRC32_TABLE.length = 256 := by decide
      omega
    rcases ih hcs (pyXor (CRC32_TABLE.get ⟨_, hlen⟩) (_right_shift_unsigned o 8))
      with ⟨r, hr⟩
    refine ⟨r, ?_⟩
    unfold mrcLoop
    rw [List.get?_eq_get hlen]
    exact hr

theorem mrc_some_of_take (l : List Nat) (h : ∀ c ∈ l.take 57, c < 256) :
    ∃ r, mrc l = some r := by
  rcases mrcLoop_some (l.take 57) h (-1) with ⟨o, ho⟩
  unfold mrc
  rw [ho]
  exact ⟨_, rfl⟩

theorem hexLower_lt128 (k : Nat) : hexLower k < 128 := by
  show HEX_LOWER.getD k 63 < 128
  rcases getD_mem_or HEX_LOWER k 63 with hm | hm
  · have hall : ∀ y ∈ HEX_LOWER, y < 128 := by decide
    exact hall _ hm
  · omega

theorem uEsc_lt (n : Nat) : ∀ x ∈ uEsc n, x < 128 := by
  intro x hx
  unfold uEsc at hx
  simp only [List.mem_cons, List.not_mem_nil, or_false] at hx
  rcases hx with h | h | h | h | h | h
  · omega
  · omega
  · rw [h]; exact hexLower_lt128 _
  · rw [h]; exact hexLower_lt128 _
  · rw [h]; exact hexLower_lt128 _
  · rw [h]; exact hexLower_lt128 _

theorem jsonEscapeChar_true_lt (c : Nat) : ∀ x ∈ jsonEscapeChar true c, x < 128 := by
  by_cases e1 : c = 34
  · subst e1; decide
  by_cases e2 : c = 92
  · subst e2; decide
  by_cases e3 : c = 8
  · subst e3; decide
  by_cases e4 : c = 9
  · subst e4; decide
  by_cases e5 : c = 10
  · subst e5; decide
  by_cases e6 : c = 12
  · subst e6; decide
  by_cases e7 : c = 13
  · subst e7; decide
  by_cases e8 : c < 32
  · intro x hx
    unfold jsonEscapeChar at hx
    rw [if_neg e1, if_neg e2, if_neg e3, if_neg e4, if_neg e5, if_neg e6,
      if_neg e7, if_pos e8] at hx
    exact uEsc_lt _ x hx
  by_cases e9 : (126 : Nat) < c
  · intro x hx
    unfold jsonEscapeChar at hx
    rw [if_neg e1, if_neg e2, if_neg e3, if_neg e4, if_neg e5, if_neg e6,
      if_neg e7, if_neg e8, if_pos ⟨rfl, e9⟩] at hx
    by_cases e10 : c < 0x10000
    · rw [if_pos e10] at hx
      exact uEsc_lt _ x hx
    · rw [if_neg e10] at hx
      rcases List.mem_append.mp hx with h | h
      · exact uEsc_lt _ x h
      · exact uEsc_lt _ x h
  · intro x hx
    unfold jsonEscapeChar at hx
    rw [if_neg e1, if_neg e2, if_neg e3, if_neg e4, if_neg e5, if_neg e6,
      if_neg e7, if_neg e8, if_neg (fun hcon => e9 hcon.2)] at hx
    simp only [List.mem_cons, List.not_mem_nil, or_false] at hx
    omega

theorem jsonString_true_lt (s : List Nat) : ∀ x ∈ jsonString true s, x < 128 := by
  intro x hx
  unfold jsonString at hx
  rcases List.mem_append.mp hx with h | h
  · rcases List.mem_append.mp h with h' | h'
    · simp only [List.mem_cons, List.not_mem_nil, or_false] at h'; omega
    · rcases List.mem_flatMap.mp h' with ⟨c, _, hcx⟩
      exact jsonEscapeChar_true_lt c x hcx
  · simp only [List.mem_cons, List.not_mem_nil, or_false] at h; omega

theorem jsonScalar_true_lt (v : PyScalar) : ∀ x ∈ jsonScalar true v, x < 128 := by
  cases v with
  | str s => exact jsonString_true_lt s
  | int n => exact intToDecStr_lt128 n

theorem joinSep_chars (sep : List Nat) (P : Nat → Prop) (hsep : ∀ x ∈ sep, P x) :
    ∀ l : List (List Nat), (∀ part ∈ l, ∀ x ∈ part, P x) →
    ∀ x ∈ joinSep sep l, P x := by
  intro l
  induction l with
  | nil =>
    intro _ x hx
    simp [joinSep] at hx
  | cons a t ih =>
    intro hl x hx
    cases t with
    | nil =>
      exact hl a (List.mem_cons_self a []) x (by simpa [joinSep] using hx)
    | cons b t2 =>
      rw [show joinSep sep (a :: b :: t2) = a ++ sep ++ joinSep sep (b :: t2)
        from rfl] at hx
      rcases List.mem_append.mp hx with h | h
      · rcases List.mem_append.mp h with h' | h'
        · exact hl a (List.mem_cons_self a (b :: t2)) x h'
        · exact hsep x h'
      · exact ih (fun part hp => hl part (List.mem_cons_of_mem _ hp)) x h

/-- With `ensure_ascii` (the mode both envelope builders use) the JSON text
is pure ASCII, whatever the payload strings contain. -/
theorem jsonDumps_true_lt (d : List (List Nat × PyScalar)) :
    ∀ x ∈ jsonDumps true d, x < 128 := by
  intro x hx
  unfold jsonDumps at hx
  rcases List.mem_append.mp hx with h | h
  · rcases List.mem_append.mp h with h' | h'
    · simp only [List.mem_cons, List.not_mem_nil, or_false] at h'; omega
    · refine joinSep_chars [44] (fun y => y < 128) (by decide) _ ?_ x h'
      intro part hp y hy
      rcases List.mem_map.mp hp with ⟨kv, _, hkv⟩
      subst hkv
      rcases List.mem_append.mp hy with h2 | h2
      · rcases List.mem_append.mp h2 with h3 | h3
        · exact jsonString_true_lt _ y h3
        · simp only [List.mem_cons, List.not_mem_nil, or_false] at h3; omega
      · exact jsonScalar_true_lt _ y h2
  · simp only [List.mem_cons, List.not_mem_nil, or_false] at h; omega

/-- With the empty opaque token, the X-S payload builds for both data-type
discriminators, and its text is a Base64 string of at least 56 ASCII
symbols. -/
theorem build_xs_payload_ok (dt : List Nat)
    (hdt : dt = codes "object" ∨ dt = codes "string") :
    ∃ xs, _build_xs_payload [] dt = some xs ∧ 56 ≤ xs.length ∧
      ∀ c ∈ xs, c < 256 := by
  have key : ∀ dt0 : List Nat,
      (_build_xs_payload [] dt0).isSome = true →
      56 ≤ ((_build_xs_payload [] dt0).getD []).length →
      ((_build_xs_payload [] dt0).getD []).all (fun c => decide (c < 256)) = true →
      ∃ xs, _build_xs_payload [] dt0 = some xs ∧ 56 ≤ xs.length ∧
        ∀ c ∈ xs, c < 256 := by
    intro dt0 h1 h2 h3
    rcases ho : _build_xs_payload [] dt0 with _ | xs
    · rw [ho] at h1; cases h1
    · rw [ho] at h2 h3
      refine ⟨xs, rfl, by simpa using h2, ?_⟩
      have h4 : xs.all (fun c => decide (c < 256)) = true := h3
      intro c hc
      simpa using List.all_eq_true.mp h4 c hc
  rcases hdt with h | h
  · subst h; exact key _ (by decide) (by decide) (by decide)
  · subst h; exact key _ (by decide) (by decide) (by decide)

/-- `_build_xs_common` always succeeds when `x_s` is a long-enough ASCII
string and `x_t` is a decimal timestamp: the `mrc` call only reads the first
57 characters, which lie inside `x_t ++ x_s`, and the `ensure_ascii` JSON
text encodes without error whatever `a1` and `b1` contain. -/
theorem xs_common_builds (a1 b1 xs : List Nat) (timeMs : Nat)
    (hlen : 56 ≤ xs.length) (hbytes : ∀ c ∈ xs, c < 256) :
    ∃ out, _build_xs_common a1 b1 xs (natToDecStr timeMs) = some out := by
  have htake : ∀ c ∈ ((natToDecStr timeMs ++ xs) ++ b1).take 57, c < 256 := by
    intro c hc
    have hlen1 : 1 ≤ (natToDecStr timeMs).length := natToDecStr_len_pos timeMs
    rw [List.take_append_of_le_length (by rw [List.length_append]; omega)] at hc
    rcases List.mem_append.mp (List.mem_of_mem_take hc) with h | h
    · have := natToDecStr_digits timeMs c h
      omega
    · exact hbytes c h
  rcases mrc_some_of_take _ htake with ⟨x9, hx9⟩
  have hval : ∀ (p : List (List Nat × PyScalar)), ∀ c ∈ jsonDumps true p,
      isValidCP c := by
    intro p c hc
    have := jsonDumps_true_lt p c hc
    exact Or.inl (by omega)
  unfold _build_xs_common buildXsCommonPayload
  rw [hx9]
  simp only [Option.map_some', Option.some_bind]
  rw [encode_utf8_valid _ (hval _)]
  exact ⟨_, rfl⟩

/-- C8: when the browser-context evaluator throws, is unavailable, or
returns empty/null, `call_mnsv2` yields the empty opaque token, and
`sign_with_playwright` still returns the complete four-header mapping
(`x-s`, `x-t`, `x-s-common`, `x-b3-traceid`) rather than raising. -/
theorem c8_evaluator_failure (br : Browser) (uri : List Nat)
    (data : Option PyData) (a1 method : List Nat) (timeMs : Nat)
    (traceId : List Nat)
    (hfail : ∀ e, br.mnsv2 e = .throws ∨ br.mnsv2 e = .returns none ∨
      br.mnsv2 e = .returns (some [])) :
    (∀ s m, call_mnsv2 br s m = []) ∧
    ∃ hs, sign_with_playwright br uri data a1 method timeMs traceId = some hs ∧
      hs.map Prod.fst =
        [codes "x-s", codes "x-t", codes "x-s-common", codes "x-b3-traceid"] := by
  have hcall : ∀ s m, call_mnsv2 br s m = [] := by
    intro s m
    unfold call_mnsv2
    rcases hfail (jsExpr s m) with h | h | h
    · rw [h]
    · rw [h]
    · rw [h]; rfl
  refine ⟨hcall, ?_⟩
  have hsw : sign_with_playwright br uri data a1 method timeMs traceId =
      (_build_xs_payload
        (call_mnsv2 br (_build_sign_string uri data method)
          (_md5_hex (_build_sign_string uri data method)))
        (if isDataObject data then codes "object" else codes "string")).bind
        fun x_s =>
          (_build_xs_common a1 (get_b1_from_localstorage br) x_s
            (natToDecStr timeMs)).map fun xsc =>
            [(codes "x-s", x_s), (codes "x-t", natToDecStr timeMs),
             (codes "x-s-common", xsc), (codes "x-b3-traceid", traceId)] := rfl
  rw [hsw, hcall]
  rcases build_xs_payload_ok
      (if isDataObject data then codes "object" else codes "string")
      (by by_cases h : isDataObject data = true
          · rw [if_pos h]; exact Or.inl rfl
          · rw [if_neg h]; exact Or.inr rfl) with ⟨xs, hxs, hlen, hb⟩
  rw [hxs, Option.some_bind]
  rcases xs_common_builds a1 (get_b1_from_localstorage br) xs timeMs hlen hb
    with ⟨out, hout⟩
  rw [hout]
  exact ⟨_, rfl, rfl⟩

/-- C8 witness: a page whose evaluator always throws still produces the four
headers. -/
theorem c8_witness :
    (∀ s m, call_mnsv2 ⟨none, fun _ => .throws⟩ s m = []) ∧
    ∃ hs, sign_with_playwright ⟨none, fun _ => .throws⟩ [] none [] [] 0 [] =
        some hs ∧
      hs.map Prod.fst =
        [codes "x-s", codes "x-t", codes "x-s-common", codes "x-b3-traceid"] :=
  c8_evaluator_failure ⟨none, fun _ => .throws⟩ [] none [] [] 0 []
    (fun _ => Or.inl rfl)
